import Mathlib

/-!
Shallow embedding of the gauntlet harness (scripts/gauntlet.py): the run
loop of the P4 differential-testing campaign, its verdict classification,
batch ("loop") partitioning, artifact relocation, and the per-batch
coverage accumulation.  File paths are modelled as lists of path
components relative to the project root; the filesystem is a finite set
of file paths; the persisted coverage files are an association list from
path to coverage set.
-/

namespace Gauntlet

/-- A file path relative to the project root, as a list of components. -/
abbrev FilePath := List String

/-! Text utilities backing the substring checks of `test_p4_program`
(the Python expression `kw in output.lower()`). -/

/-- Whether the first list is an initial segment of the second. -/
def leadMatch : List Char → List Char → Bool
  | [], _ => true
  | _ :: _, [] => false
  | c :: cs, d :: ds => c == d && leadMatch cs ds

/-- Whether the first list occurs contiguously anywhere in the second. -/
def hasSub (needle : List Char) : List Char → Bool
  | [] => needle.isEmpty
  | d :: ds => leadMatch needle (d :: ds) || hasSub needle ds

/-- Lower-casing of a text, as in Python `str.lower` on the ASCII range. -/
def lowerText (s : List Char) : List Char := s.map Char.toLower

/-- Verdict classification of the combined stdout+stderr text of the
oracle, exactly the keyword cascade of `test_p4_program`
(gauntlet.py lines 195-202): first match wins, case-insensitive. -/
def classify (out : List Char) : String :=
  if hasSub "well-typed".toList (lowerText out) then "well-typed"
  else if hasSub "ill-typed".toList (lowerText out) then "ill-typed"
  else if hasSub "ill-formed".toList (lowerText out) then "ill-formed"
  else "error"

/-! Numeric formatting and parsing used for program and loop names. -/

/-- Zero-padded decimal rendering, as the Python format `{n:0wd}`. -/
def padNum (w n : Nat) : String :=
  let s := Nat.repr n
  String.mk (List.replicate (w - s.length) '0') ++ s

/-- The program name assigned to index `i`: Python `f"gauntlet{i:05d}"`. -/
def programName (i : Nat) : String := "gauntlet" ++ padNum 5 i

/-- The digit characters of a name, concatenated in order
(`''.join(ch for ch in program_name if ch.isdigit())`). -/
def digitsOf (name : String) : List Char := name.toList.filter Char.isDigit

/-- Parsing a digit string as Python `int` does: the empty string raises
`ValueError`, modelled as `none`; anything else parses in base ten. -/
def parseIndex : List Char → Option Nat
  | [] => none
  | c :: cs => some ((c :: cs).foldl (fun a d => a * 10 + (d.toNat - 48)) 0)

/-- The index recovered from a program name, defaulting to 0 when the
parse fails (`except ValueError: idx = 0` in `_loop_dir_for_program`). -/
def programIndexOf (name : String) : Nat := (parseIndex (digitsOf name)).getD 0

/-- The clamping of the configured loop size done in
`GauntletRunner.__init__`: `self.loop_size = max(1, int(loop_size))`. -/
def clampLoopSize (l : Int) : Nat := (max 1 l).toNat

/-- Batch identifier of an index: `idx // self.loop_size` with the loop
size as clamped at construction. -/
def batchOf (i : Nat) (l : Int) : Nat := i / clampLoopSize l

/-- The loop directory of `_loop_dir_for_program`:
`gauntlet/loop{idx // loop_size :02d}`, taking the already clamped loop
size. -/
def loop_dir_for_program (ls : Nat) (name : String) : FilePath :=
  ["gauntlet", "loop" ++ padNum 2 (programIndexOf name / ls)]

/-- The staging location of a generated artifact: `p4c/build/<name>.p4`. -/
def stagingPath (name : String) : FilePath := ["p4c", "build", name ++ ".p4"]

/-- The bucket subdirectory for a result type, per the branch ladder of
`categorize_program`; `none` for an unknown result type. -/
def bucketFor (rt : String) : Option String :=
  if rt = "well-typed" then some "welltyped"
  else if rt = "ill-typed" then some "illtyped"
  else if rt = "ill-formed" then some "illformed"
  else if rt = "timeout" then some "timeout"
  else none

/-- Relocation of an artifact into its verdict bucket, following
`categorize_program`: fail if the staged source file is absent; fail on
an unknown result type; otherwise move the file into
`loopNN/<bucket>/<name>.p4`.  Returns the new filesystem and the
success flag. -/
def categorize_program (ls : Nat) (fs : Finset FilePath) (name rt : String) :
    Finset FilePath × Bool :=
  if stagingPath name ∈ fs then
    match bucketFor rt with
    | some b =>
        (insert (loop_dir_for_program ls name ++ [b, name ++ ".p4"])
          (fs.erase (stagingPath name)), true)
    | none => (fs, false)
  else (fs, false)

/-! Coverage persistence (`measure_loop_coverage` together with the
`coverage_utils` helpers `read_coverage`, `write_coverage`,
`union_coverage`). -/

/-- A coverage record: a set of covered-item identifiers. -/
abbrev CovSet := Finset Nat

/-- The persisted coverage files: an association of path to record. -/
abbrev CovStore := List (FilePath × CovSet)

/-- Reading a persisted coverage file; `none` when the path is absent. -/
def lookupCov : CovStore → FilePath → Option CovSet
  | [], _ => none
  | (q, c) :: rest, p => if q = p then some c else lookupCov rest p

/-- Writing a coverage file, overwriting any previous record there. -/
def writeCov (st : CovStore) (p : FilePath) (c : CovSet) : CovStore :=
  (p, c) :: st.filter (fun e => if e.1 = p then false else true)

/-- Union of two coverage records (`union_coverage`). -/
def union_coverage (a b : CovSet) : CovSet := a ∪ b

/-- Where `measure_loop_coverage` writes the record of batch `l`:
`self.gauntlet_dir / f"loop{l:02d}.cov"`. -/
def covFilePath (l : Nat) : FilePath := ["gauntlet", "loop" ++ padNum 2 l ++ ".cov"]

/-- Where `measure_loop_coverage` looks for the previous batch's record:
`self.project_root / f"loop{l:02d}.cov"` — note: under the project root,
not under the gauntlet directory. -/
def prevCovPath (l : Nat) : FilePath := ["loop" ++ padNum 2 l ++ ".cov"]

/-- `measure_loop_coverage`: run the coverage tool for batch `l`
(modelled by the oracle function `measure`, which writes the fresh
record to the batch's `-cov` file), then, when `l > 0` and the previous
batch's record exists at `prevCovPath (l-1)`, overwrite the batch's
record with the union of the two. -/
def measure_loop_coverage (measure : Nat → CovSet) (st : CovStore) (l : Nat) :
    CovStore :=
  let st1 := writeCov st (covFilePath l) (measure l)
  if 0 < l then
    match lookupCov st1 (prevCovPath (l - 1)) with
    | some prev =>
        match lookupCov st1 (covFilePath l) with
        | some curr => writeCov st1 (covFilePath l) (union_coverage prev curr)
        | none => st1
    | none => st1
  else st1

/-! The run loop of `run_gauntlet`. -/

/-- The outcome of one oracle invocation: either the process timed out
before producing output (`subprocess.TimeoutExpired`), or it completed
with the given combined stdout+stderr text. -/
inductive OracleOutcome
  | timeout
  | output (t : List Char)
deriving DecidableEq

/-- The external behaviour of one cycle: whether `generate_p4_program`
succeeded, and what `test_p4_program`'s oracle invocation did. -/
structure CycleOutcome where
  gen : Bool
  oracle : OracleOutcome
deriving DecidableEq

/-- The result type returned by `test_p4_program`: `"timeout"` on a
timed-out oracle run, otherwise the classification of the output text. -/
def oracleResultType : OracleOutcome → String
  | .timeout => "timeout"
  | .output t => classify t

/-- Observable events of a run, in emission order. -/
inductive Event
  | genFailed (i : Nat)
  | errorDiscarded (i : Nat)
  | categorizeFailed (i : Nat)
  | stored (i : Nat) (rt : String)
  | summary (i : Nat)
  | measured (l : Nat)
  | finalMeasured (l : Nat)
deriving DecidableEq

/-- The index an event concerns, when it concerns a single index. -/
def eventIndex : Event → Option Nat
  | .genFailed i => some i
  | .errorDiscarded i => some i
  | .categorizeFailed i => some i
  | .stored i _ => some i
  | .summary i => some i
  | .measured _ => none
  | .finalMeasured _ => none

/-- Whether an event stores an artifact into a bucket. -/
def isStoredEvent : Event → Bool
  | .stored _ _ => true
  | _ => false

/-- Whether an event is a coverage measurement (boundary or finishing). -/
def isMeasureEvent : Event → Bool
  | .measured _ => true
  | .finalMeasured _ => true
  | _ => false

/-- Number of stored artifacts recorded in an event list. -/
def countStored (evs : List Event) : Nat := (evs.filter isStoredEvent).length

/-- Result of one iteration of the `while` body of `run_gauntlet`:
the filesystem afterwards, the events emitted, and whether the artifact
was classified and relocated. -/
structure CycleResult where
  fs : Finset FilePath
  events : List Event
  stored : Bool

/-- One iteration of the `while` body of `run_gauntlet` for index `i`
(program counter already advanced past `i`), with `ls` the clamped loop
size: generate (on failure skip), create the staged artifact, test, on
an `"error"` verdict delete the artifact and skip, otherwise relocate it
with `categorize_program`; on success print the every-10 summary when
`(i+1) % 10 == 0` and measure the batch when `(i+1) % ls == 0`. -/
def runCycle (ls i : Nat) (o : CycleOutcome) (fs : Finset FilePath) : CycleResult :=
  if o.gen = false then ⟨fs, [.genFailed i], false⟩
  else if oracleResultType o.oracle = "error" then
    ⟨(insert (stagingPath (programName i)) fs).erase (stagingPath (programName i)),
      [.errorDiscarded i], false⟩
  else if (categorize_program ls (insert (stagingPath (programName i)) fs)
      (programName i) (oracleResultType o.oracle)).2 then
    ⟨(categorize_program ls (insert (stagingPath (programName i)) fs)
        (programName i) (oracleResultType o.oracle)).1,
      .stored i (oracleResultType o.oracle) ::
        ((if (i + 1) % 10 = 0 then [.summary i] else []) ++
          (if (i + 1) % ls = 0 then [.measured (i / ls)] else [])),
      true⟩
  else
    ⟨(categorize_program ls (insert (stagingPath (programName i)) fs)
        (programName i) (oracleResultType o.oracle)).1,
      [.categorizeFailed i], false⟩

/-- The mutable state of `run_gauntlet`: the program counter, the
filesystem, the events emitted so far, and `last_measured_loop_index`
(initially `-1`). -/
structure RunState where
  program_count : Nat
  fs : Finset FilePath
  events : List Event
  last_measured : Int

/-- The initial state of a run. -/
def initState : RunState := ⟨0, ∅, [], -1⟩

/-- One step of the run loop: run the cycle for the current index and
advance; `last_measured` is updated exactly when the cycle stored its
artifact and closed a batch. -/
def runStep (ls : Nat) (o : Nat → CycleOutcome) (st : RunState) : RunState :=
  let i := st.program_count
  let r := runCycle ls i (o i) st.fs
  ⟨i + 1, r.fs, st.events ++ r.events,
    if r.stored ∧ (i + 1) % ls = 0 then ((i / ls : Nat) : Int) else st.last_measured⟩

/-- The run loop, iterated `fuel` times.  With the `count` stop
condition the `while` loop of `run_gauntlet` executes exactly `count`
iterations, so `fuel` is instantiated with `count`. -/
def runLoop (ls : Nat) (o : Nat → CycleOutcome) : Nat → RunState → RunState
  | 0, st => st
  | fuel + 1, st => runLoop ls o fuel (runStep ls o st)

/-- The finishing phase after the loop exits: when any program was
processed, measure coverage for the final (possibly partial) batch
unless its index was the last one measured at a boundary. -/
def finishRun (ls : Nat) (st : RunState) : RunState :=
  if 0 < st.program_count then
    if (((st.program_count - 1) / ls : Nat) : Int) = st.last_measured then st
    else { st with
      events := st.events ++ [Event.finalMeasured ((st.program_count - 1) / ls)] }
  else st

/-- `run_gauntlet` with the `count` stop condition (a positive count;
the duration stop condition is wall-clock driven and out of scope):
clamp the loop size, run `count` cycles, then run the finishing phase. -/
def run_gauntlet (ls0 : Int) (o : Nat → CycleOutcome) (count : Nat) : RunState :=
  finishRun (clampLoopSize ls0) (runLoop (clampLoopSize ls0) o count initState)

/-! Helper lemmas about run cycles and the run loop. -/

theorem countStored_append (a b : List Event) :
    countStored (a ++ b) = countStored a + countStored b := by
  simp [countStored, List.filter_append]

theorem runCycle_genfail (ls i : Nat) (o : CycleOutcome) (fs : Finset FilePath)
    (h : o.gen = false) : runCycle ls i o fs = ⟨fs, [.genFailed i], false⟩ := by
  simp [runCycle, h]

/-- Case analysis on the events and stored flag of one cycle. -/
theorem runCycle_events_cases (ls i : Nat) (o : CycleOutcome) (fs : Finset FilePath) :
    ((runCycle ls i o fs).events = [.genFailed i] ∧ (runCycle ls i o fs).stored = false)
  ∨ ((runCycle ls i o fs).events = [.errorDiscarded i]
      ∧ (runCycle ls i o fs).stored = false)
  ∨ ((runCycle ls i o fs).events = [.categorizeFailed i]
      ∧ (runCycle ls i o fs).stored = false)
  ∨ (∃ rt, (runCycle ls i o fs).events =
        .stored i rt ::
          ((if (i + 1) % 10 = 0 then [.summary i] else []) ++
            (if (i + 1) % ls = 0 then [.measured (i / ls)] else []))
      ∧ (runCycle ls i o fs).stored = true) := by
  unfold runCycle
  split
  · exact Or.inl ⟨rfl, rfl⟩
  · split
    · exact Or.inr (Or.inl ⟨rfl, rfl⟩)
    · split
      · exact Or.inr (Or.inr (Or.inr ⟨_, rfl, rfl⟩))
      · exact Or.inr (Or.inr (Or.inl ⟨rfl, rfl⟩))

theorem runCycle_countStored_le (ls i : Nat) (o : CycleOutcome) (fs : Finset FilePath) :
    countStored (runCycle ls i o fs).events ≤ 1 := by
  rcases runCycle_events_cases ls i o fs with ⟨he, _⟩ | ⟨he, _⟩ | ⟨he, _⟩ | ⟨rt, he, _⟩ <;>
    rw [he]
  · simp [countStored, isStoredEvent]
  · simp [countStored, isStoredEvent]
  · simp [countStored, isStoredEvent]
  · split <;> split <;> simp [countStored, isStoredEvent, List.filter_append]

theorem runCycle_stored_mem (ls i : Nat) (o : CycleOutcome) (fs : Finset FilePath)
    (j : Nat) (v : String) (h : Event.stored j v ∈ (runCycle ls i o fs).events) :
    j = i := by
  rcases runCycle_events_cases ls i o fs with ⟨he, _⟩ | ⟨he, _⟩ | ⟨he, _⟩ | ⟨rt, he, _⟩ <;>
    rw [he] at h
  · simp at h
  · simp at h
  · simp at h
  · rcases List.mem_cons.mp h with h1 | h2
    · exact (Event.stored.injEq _ _ _ _ ▸ h1).1
    · exfalso
      rcases List.mem_append.mp h2 with h3 | h3 <;> split at h3 <;> simp_all

theorem runCycle_exists_index (ls i : Nat) (o : CycleOutcome) (fs : Finset FilePath) :
    ∃ e ∈ (runCycle ls i o fs).events, eventIndex e = some i := by
  rcases runCycle_events_cases ls i o fs with ⟨he, _⟩ | ⟨he, _⟩ | ⟨he, _⟩ | ⟨rt, he, _⟩ <;>
    rw [he]
  · exact ⟨.genFailed i, List.mem_singleton.mpr rfl, rfl⟩
  · exact ⟨.errorDiscarded i, List.mem_singleton.mpr rfl, rfl⟩
  · exact ⟨.categorizeFailed i, List.mem_singleton.mpr rfl, rfl⟩
  · exact ⟨.stored i rt, List.mem_cons_self _ _, rfl⟩

theorem runStep_pc (ls : Nat) (o : Nat → CycleOutcome) (st : RunState) :
    (runStep ls o st).program_count = st.program_count + 1 := rfl

theorem runStep_events (ls : Nat) (o : Nat → CycleOutcome) (st : RunState) :
    (runStep ls o st).events
      = st.events ++ (runCycle ls st.program_count (o st.program_count) st.fs).events :=
  rfl

theorem runLoop_pc (ls : Nat) (o : Nat → CycleOutcome) (fuel : Nat) :
    ∀ st : RunState, (runLoop ls o fuel st).program_count = st.program_count + fuel := by
  induction fuel with
  | zero => intro st; rfl
  | succ n ih =>
    intro st
    rw [runLoop, ih, runStep_pc]
    omega

theorem runLoop_countStored_le (ls : Nat) (o : Nat → CycleOutcome) (fuel : Nat) :
    ∀ st : RunState,
      countStored (runLoop ls o fuel st).events ≤ countStored st.events + fuel := by
  induction fuel with
  | zero => intro st; simp [runLoop]
  | succ n ih =>
    intro st
    rw [runLoop]
    have h1 := ih (runStep ls o st)
    have h2 := runCycle_countStored_le ls st.program_count (o st.program_count) st.fs
    rw [runStep_events, countStored_append] at h1
    omega

theorem runLoop_countStored_skip (ls : Nat) (o : Nat → CycleOutcome) (k : Nat)
    (hk : (o k).gen = false) (fuel : Nat) :
    ∀ st : RunState, st.program_count ≤ k → k < st.program_count + fuel →
      countStored (runLoop ls o fuel st).events ≤ countStored st.events + fuel - 1 := by
  induction fuel with
  | zero => intro st h1 h2; omega
  | succ n ih =>
    intro st h1 h2
    rw [runLoop]
    by_cases hik : st.program_count = k
    · have hev : (runStep ls o st).events = st.events ++ [Event.genFailed k] := by
        rw [runStep_events, hik, runCycle_genfail _ _ _ _ hk]
      have h3 := runLoop_countStored_le ls o n (runStep ls o st)
      rw [hev, countStored_append] at h3
      have h0 : countStored [Event.genFailed k] = 0 := by
        simp [countStored, isStoredEvent]
      omega
    · have h3 := ih (runStep ls o st) (by rw [runStep_pc]; omega) (by rw [runStep_pc]; omega)
      have h4 := runCycle_countStored_le ls st.program_count (o st.program_count) st.fs
      rw [runStep_events, countStored_append] at h3
      omega

theorem runLoop_mem_events (ls : Nat) (o : Nat → CycleOutcome) (fuel : Nat) :
    ∀ (st : RunState) (e : Event), e ∈ (runLoop ls o fuel st).events →
      e ∈ st.events
      ∨ ∃ i fs, st.program_count ≤ i ∧ i < st.program_count + fuel
          ∧ e ∈ (runCycle ls i (o i) fs).events := by
  induction fuel with
  | zero => intro st e h; exact Or.inl h
  | succ n ih =>
    intro st e h
    rw [runLoop] at h
    rcases ih _ e h with h1 | ⟨i, fs, hi1, hi2, hmem⟩
    · rw [runStep_events] at h1
      rcases List.mem_append.mp h1 with h2 | h2
      · exact Or.inl h2
      · exact Or.inr ⟨st.program_count, st.fs, le_refl _, by omega, h2⟩
    · rw [runStep_pc] at hi1 hi2
      exact Or.inr ⟨i, fs, by omega, by omega, hmem⟩

theorem runLoop_events_mono (ls : Nat) (o : Nat → CycleOutcome) (fuel : Nat) :
    ∀ (st : RunState) (e : Event), e ∈ st.events → e ∈ (runLoop ls o fuel st).events := by
  induction fuel with
  | zero => intro st e h; exact h
  | succ n ih =>
    intro st e h
    rw [runLoop]
    exact ih _ e (by rw [runStep_events]; exact List.mem_append.mpr (Or.inl h))

theorem runLoop_index_covered (ls : Nat) (o : Nat → CycleOutcome) (fuel : Nat) :
    ∀ (st : RunState) (i : Nat), st.program_count ≤ i → i < st.program_count + fuel →
      ∃ e ∈ (runLoop ls o fuel st).events, eventIndex e = some i := by
  induction fuel with
  | zero => intro st i h1 h2; omega
  | succ n ih =>
    intro st i h1 h2
    rw [runLoop]
    by_cases hik : st.program_count = i
    · obtain ⟨e, hmem, hidx⟩ :=
        runCycle_exists_index ls st.program_count (o st.program_count) st.fs
      refine ⟨e, runLoop_events_mono ls o n _ e ?_, by rw [hidx, hik]⟩
      rw [runStep_events]
      exact List.mem_append.mpr (Or.inr hmem)
    · exact ih (runStep ls o st) i (by rw [runStep_pc]; omega) (by rw [runStep_pc]; omega)

theorem finishRun_pc (ls : Nat) (st : RunState) :
    (finishRun ls st).program_count = st.program_count := by
  unfold finishRun
  split
  · split <;> rfl
  · rfl

theorem finishRun_events (ls : Nat) (st : RunState) :
    (finishRun ls st).events = st.events
  ∨ ∃ fl, (finishRun ls st).events = st.events ++ [Event.finalMeasured fl] := by
  unfold finishRun
  split
  · split
    · exact Or.inl rfl
    · exact Or.inr ⟨_, rfl⟩
  · exact Or.inl rfl

theorem finishRun_countStored (ls : Nat) (st : RunState) :
    countStored (finishRun ls st).events = countStored st.events := by
  rcases finishRun_events ls st with h | ⟨fl, h⟩ <;> rw [h]
  rw [countStored_append]
  simp [countStored, isStoredEvent]

theorem finishRun_mem (ls : Nat) (st : RunState) (e : Event)
    (h : e ∈ (finishRun ls st).events) :
    e ∈ st.events ∨ ∃ fl, e = Event.finalMeasured fl := by
  rcases finishRun_events ls st with hf | ⟨fl, hf⟩ <;> rw [hf] at h
  · exact Or.inl h
  · rcases List.mem_append.mp h with h1 | h1
    · exact Or.inl h1
    · exact Or.inr ⟨fl, List.mem_singleton.mp h1⟩

theorem finishRun_events_mono (ls : Nat) (st : RunState) (e : Event)
    (h : e ∈ st.events) : e ∈ (finishRun ls st).events := by
  rcases finishRun_events ls st with hf | ⟨fl, hf⟩ <;> rw [hf]
  · exact h
  · exact List.mem_append.mpr (Or.inl h)

theorem run_gauntlet_pc (ls0 : Int) (o : Nat → CycleOutcome) (count : Nat) :
    (run_gauntlet ls0 o count).program_count = count := by
  unfold run_gauntlet
  rw [finishRun_pc, runLoop_pc]
  simp [initState]

/-! Claim theorems. -/

/-- C7: for all non-negative `i` and configured loop sizes `l`,
`batchOf i l` is integer division of `i` by the loop size clamped to a
minimum of 1 (0 or negative configured values are treated as 1, positive
configured values are kept), and `batchOf` is total, deterministic and
non-decreasing in `i`. -/
theorem batchOf_clamped_div (i j : Nat) (l : Int) :
    batchOf i l = i / clampLoopSize l
  ∧ (l ≤ 0 → clampLoopSize l = 1 ∧ batchOf i l = i)
  ∧ (0 < l → (clampLoopSize l : Int) = l)
  ∧ (i ≤ j → batchOf i l ≤ batchOf j l) := by
  refine ⟨rfl, ?_, ?_, ?_⟩
  · intro hl
    have h1 : clampLoopSize l = 1 := by
      unfold clampLoopSize
      rw [max_eq_left (by omega : l ≤ 1)]
      rfl
    refine ⟨h1, ?_⟩
    unfold batchOf
    rw [h1, Nat.div_one]
  · intro hl
    unfold clampLoopSize
    rw [max_eq_right (by omega : (1 : Int) ≤ l)]
    exact Int.toNat_of_nonneg (by omega)
  · intro hij
    exact Nat.div_le_div_right hij

theorem batchOf_clamped_div_witness :
    clampLoopSize (-7) = 1 ∧ batchOf 4 (-7) = 4 ∧ batchOf 4 (-7) ≤ batchOf 9 (-7) :=
  ⟨((batchOf_clamped_div 4 9 (-7)).2.1 (by decide)).1,
   ((batchOf_clamped_div 4 9 (-7)).2.1 (by decide)).2,
   (batchOf_clamped_div 4 9 (-7)).2.2.2 (by decide)⟩

/-- C10: mapping a program name to its batch directory is total over
arbitrary names: the digit characters of the name, wherever they occur,
are concatenated and parsed as the index, and when they do not form a
valid integer (in particular when the name has no digits at all) the
index silently defaults to 0, filing the artifact under batch 0. -/
theorem loop_dir_total_and_default :
    (∀ (name : String) (ls : Nat),
        loop_dir_for_program ls name
          = ["gauntlet", "loop" ++ padNum 2 ((parseIndex (digitsOf name)).getD 0 / ls)])
  ∧ (∀ (name : String) (ls : Nat), digitsOf name = [] →
        loop_dir_for_program ls name = ["gauntlet", "loop00"]) := by
  refine ⟨fun name ls => rfl, fun name ls h => ?_⟩
  unfold loop_dir_for_program programIndexOf
  rw [h]
  have h0 : (parseIndex ([] : List Char)).getD 0 / ls = 0 := by simp [parseIndex]
  rw [h0]
  rfl

theorem loop_dir_total_and_default_witness :
    loop_dir_for_program 7 "no-digits-here" = ["gauntlet", "loop00"] :=
  loop_dir_total_and_default.2 "no-digits-here" 7 (by decide)

/-- C3: `classify` is a first-match-wins, case-insensitive substring
search over the combined stdout+stderr text with precedence
well-typed over ill-typed over ill-formed over error; in particular any
text containing "ill-typed" but not "well-typed" (so also any text
containing both "ill-typed" and "ill-formed") classifies as ill-typed,
and the explicit scenario text classifies as ill-typed. -/
theorem classify_first_match :
    (∀ out : List Char,
        (hasSub "well-typed".toList (lowerText out) = true →
          classify out = "well-typed")
      ∧ (hasSub "well-typed".toList (lowerText out) = false →
          hasSub "ill-typed".toList (lowerText out) = true →
          classify out = "ill-typed")
      ∧ (hasSub "well-typed".toList (lowerText out) = false →
          hasSub "ill-typed".toList (lowerText out) = false →
          hasSub "ill-formed".toList (lowerText out) = true →
          classify out = "ill-formed")
      ∧ (hasSub "well-typed".toList (lowerText out) = false →
          hasSub "ill-typed".toList (lowerText out) = false →
          hasSub "ill-formed".toList (lowerText out) = false →
          classify out = "error"))
  ∧ classify "result: ill-formed but also ill-typed".toList = "ill-typed" := by
  refine ⟨fun out => ⟨?_, ?_, ?_, ?_⟩, by decide⟩
  · intro h1
    simp only [classify]
    rw [h1]
    simp
  · intro h1 h2
    simp only [classify]
    rw [h1, h2]
    simp
  · intro h1 h2 h3
    simp only [classify]
    rw [h1, h2, h3]
    simp
  · intro h1 h2 h3
    simp only [classify]
    rw [h1, h2, h3]
    simp

theorem classify_first_match_witness :
    classify "ILL-TYPED output here".toList = "ill-typed" :=
  (classify_first_match.1 "ILL-TYPED output here".toList).2.1 (by decide) (by decide)

/-- C6: bucket relocation is idempotent on the filesystem state: after a
successful relocation the staged source no longer exists and the target
bucket holds the artifact, so a second relocation with the same name and
verdict changes nothing (it reports failure on the missing source and
returns the filesystem unchanged). -/
theorem categorize_program_idem (ls : Nat) (fs : Finset FilePath) (name rt : String)
    (h : (categorize_program ls fs name rt).2 = true) :
    categorize_program ls (categorize_program ls fs name rt).1 name rt
      = ((categorize_program ls fs name rt).1, false)
  ∧ stagingPath name ∉ (categorize_program ls fs name rt).1
  ∧ ∃ b, bucketFor rt = some b
      ∧ (loop_dir_for_program ls name ++ [b, name ++ ".p4"])
          ∈ (categorize_program ls fs name rt).1 := by
  by_cases hm : stagingPath name ∈ fs
  · rcases hb : bucketFor rt with _ | b
    · exfalso
      rw [categorize_program, if_pos hm, hb] at h
      exact Bool.false_ne_true h
    · have hfs1 : (categorize_program ls fs name rt).1
          = insert (loop_dir_for_program ls name ++ [b, name ++ ".p4"])
              (fs.erase (stagingPath name)) := by
        rw [categorize_program, if_pos hm, hb]

      have hsne : stagingPath name
          ≠ loop_dir_for_program ls name ++ [b, name ++ ".p4"] := by
        intro hcontra
        simp [stagingPath, loop_dir_for_program] at hcontra
      have hnot : stagingPath name ∉ (categorize_program ls fs name rt).1 := by
        rw [hfs1]
        intro hmem
        rcases Finset.mem_insert.mp hmem with h1 | h1
        · exact hsne h1
        · exact Finset.not_mem_erase _ _ h1
      refine ⟨?_, hnot, b, rfl, ?_⟩
      · rw [categorize_program, if_neg hnot]
      · rw [hfs1]
        exact Finset.mem_insert_self _ _
  · exfalso
    rw [categorize_program, if_neg hm] at h
    exact Bool.false_ne_true h

theorem categorize_program_idem_witness :
    categorize_program 2
        (categorize_program 2 {stagingPath "gauntlet00003"} "gauntlet00003"
          "well-typed").1 "gauntlet00003" "well-typed"
      = ((categorize_program 2 {stagingPath "gauntlet00003"} "gauntlet00003"
          "well-typed").1, false) :=
  (categorize_program_idem 2 {stagingPath "gauntlet00003"} "gauntlet00003"
    "well-typed" (by decide)).1

/-- C8: an oracle run that did not time out and whose output contains
none of the three keywords (for example the literal text
"error: crash") classifies as error; the cycle then deletes the staged
artifact instead of relocating it, leaving the filesystem unchanged,
emitting only a discard event, and not counting as a stored result. -/
theorem error_output_discarded (ls i : Nat) (t : List Char) (fs : Finset FilePath)
    (hfs : stagingPath (programName i) ∉ fs)
    (h1 : hasSub "well-typed".toList (lowerText t) = false)
    (h2 : hasSub "ill-typed".toList (lowerText t) = false)
    (h3 : hasSub "ill-formed".toList (lowerText t) = false) :
    classify t = "error"
  ∧ runCycle ls i ⟨true, .output t⟩ fs = ⟨fs, [.errorDiscarded i], false⟩ := by
  have hcl : classify t = "error" := by
    simp only [classify]
    rw [h1, h2, h3]
    simp
  refine ⟨hcl, ?_⟩
  unfold runCycle
  simp only [oracleResultType, hcl]
  simp [Finset.erase_insert hfs]

theorem error_output_discarded_witness :
    runCycle 3 0 ⟨true, .output "error: crash".toList⟩ ∅
      = ⟨∅, [.errorDiscarded 0], false⟩ :=
  (error_output_discarded 3 0 "error: crash".toList ∅ (by decide) (by decide)
    (by decide) (by decide)).2

/-- C1 (divergence exhibit): two batches measured in order with raw
measurements `{0}` and `{1}` under loop size 1.  The code looks for the
previous batch's record at `prevCovPath` (directly under the project
root) while records are written to `covFilePath` (under the gauntlet
directory), so the union step never fires: batch 1's persisted record
stays `{1}` even though batch 0's record `{0}` is persisted, instead of
the union `{0, 1}` the claim requires. -/
theorem coverage_union_never_fires :
    lookupCov (measure_loop_coverage (fun l => {l})
        (measure_loop_coverage (fun l => {l}) [] 0) 1) (covFilePath 1) = some {1}
  ∧ lookupCov (measure_loop_coverage (fun l => {l})
        (measure_loop_coverage (fun l => {l}) [] 0) 1) (covFilePath 0) = some {0}
  ∧ lookupCov (measure_loop_coverage (fun l => {l})
        (measure_loop_coverage (fun l => {l}) [] 0) 1) (prevCovPath 0) = none
  ∧ some (union_coverage {0} {1})
      ≠ lookupCov (measure_loop_coverage (fun l => {l})
          (measure_loop_coverage (fun l => {l}) [] 0) 1) (covFilePath 1) := by
  refine ⟨by decide, by decide, by decide, by decide⟩

set_option maxRecDepth 100000 in
/-- C2 (counterexample): loop size 2, count 4, generation failing
exactly at index 1.  Index 1 completes batch 0 (`(1+1) % 2 = 0`), yet no
coverage measurement for batch 0 is ever triggered — the cycle's
`continue` on generation failure skips the batch-boundary check, and the
finishing phase measures only the final batch (batch 1, already measured
at the boundary after index 3).  This refutes the claim that the
measurement fires even when the boundary index's cycle failed. -/
theorem boundary_measure_skipped_on_genfail :
    (run_gauntlet 2
        (fun i => if i = 1 then ⟨false, .output []⟩
                  else ⟨true, .output "well-typed".toList⟩) 4).events
      = [.stored 0 "well-typed", .genFailed 1, .stored 2 "well-typed",
         .stored 3 "well-typed", .measured 1]
  ∧ Event.measured 0 ∉ (run_gauntlet 2
        (fun i => if i = 1 then ⟨false, .output []⟩
                  else ⟨true, .output "well-typed".toList⟩) 4).events
  ∧ Event.finalMeasured 0 ∉ (run_gauntlet 2
        (fun i => if i = 1 then ⟨false, .output []⟩
                  else ⟨true, .output "well-typed".toList⟩) 4).events := by
  refine ⟨by decide, by decide, by decide⟩

/-- C2 (amended): a cycle triggers the coverage measurement for its
batch exactly when its index closes a full batch AND the cycle itself
classified and stored its artifact; cycles that were skipped
(generation failure) or discarded (error verdict) or failed relocation
do not trigger the boundary measurement even at a batch boundary. -/
theorem measured_iff_boundary_stored (ls i : Nat) (o : CycleOutcome)
    (fs : Finset FilePath) (l : Nat) :
    Event.measured l ∈ (runCycle ls i o fs).events ↔
      (l = i / ls ∧ (i + 1) % ls = 0 ∧ (runCycle ls i o fs).stored = true) := by
  rcases runCycle_events_cases ls i o fs with ⟨he, hs⟩ | ⟨he, hs⟩ | ⟨he, hs⟩ |
      ⟨rt, he, hs⟩ <;> rw [he, hs]
  · simp
  · simp
  · simp
  · constructor
    · intro hmem
      rcases List.mem_cons.mp hmem with h1 | h2
      · exact absurd h1 (by simp)
      · rcases List.mem_append.mp h2 with h3 | h3
        · exact absurd h3 (by split <;> simp)
        · refine ⟨?_, ?_, rfl⟩ <;> revert h3 <;> split <;> simp_all
    · rintro ⟨hl, hb, _⟩
      refine List.mem_cons.mpr (Or.inr (List.mem_append.mpr (Or.inr ?_)))
      rw [if_pos hb, hl]
      exact List.mem_singleton.mpr rfl

theorem measured_iff_boundary_stored_witness :
    Event.measured 0
      ∈ (runCycle 2 1 ⟨true, .output "well-typed".toList⟩ ∅).events :=
  (measured_iff_boundary_stored 2 1 ⟨true, .output "well-typed".toList⟩ ∅ 0).mpr
    ⟨by decide, by decide, by decide⟩

set_option maxRecDepth 100000 in
/-- C4 (counterexample): count 10 with generation failing exactly at
index 0 and indices 1..9 stored.  Only 9 artifacts are ever stored, yet
a cumulative summary fires (after index 9): the every-10 check runs on
the raw index counter, which counts skipped indices too.  This refutes
the claim that the counter counts only classified-and-stored indices. -/
theorem summary_counts_skipped_indices :
    Event.summary 9 ∈ (run_gauntlet 1000
        (fun i => if i = 0 then ⟨false, .output []⟩
                  else ⟨true, .output "well-typed".toList⟩) 10).events
  ∧ countStored (run_gauntlet 1000
        (fun i => if i = 0 then ⟨false, .output []⟩
                  else ⟨true, .output "well-typed".toList⟩) 10).events = 9 := by
  refine ⟨by decide, by decide⟩

/-- C4 (amended): a cycle emits the cumulative summary exactly when the
raw index counter (which counts every assigned index, skipped and
discarded ones included) reaches a multiple of 10 at that cycle AND the
cycle itself classified and stored its artifact; skipped or discarded
cycles never emit it, even at a multiple of 10. -/
theorem summary_iff_tenth_index_stored (ls i : Nat) (o : CycleOutcome)
    (fs : Finset FilePath) :
    Event.summary i ∈ (runCycle ls i o fs).events ↔
      ((i + 1) % 10 = 0 ∧ (runCycle ls i o fs).stored = true) := by
  rcases runCycle_events_cases ls i o fs with ⟨he, hs⟩ | ⟨he, hs⟩ | ⟨he, hs⟩ |
      ⟨rt, he, hs⟩ <;> rw [he, hs]
  · simp
  · simp
  · simp
  · constructor
    · intro hmem
      rcases List.mem_cons.mp hmem with h1 | h2
      · exact absurd h1 (by simp)
      · rcases List.mem_append.mp h2 with h3 | h3
        · refine ⟨?_, rfl⟩
          revert h3
          split <;> simp_all
        · exact absurd h3 (by split <;> simp)
    · rintro ⟨hb, _⟩
      refine List.mem_cons.mpr (Or.inr (List.mem_append.mpr (Or.inl ?_)))
      rw [if_pos hb]
      exact List.mem_singleton.mpr rfl

theorem summary_iff_tenth_index_stored_witness :
    Event.summary 9
      ∈ (runCycle 3 9 ⟨true, .output "well-typed".toList⟩ ∅).events :=
  (summary_iff_tenth_index_stored 3 9 ⟨true, .output "well-typed".toList⟩ ∅).mpr
    ⟨by decide, by decide⟩

/-- C5: in a run with count 5 whose generation fails at index 3, no
artifact is stored for index 3, the stored-artifact count is at most 4,
the index counter still reaches 5, and index 4 is still attempted. -/
theorem genfail_skips_and_counts (ls0 : Int) (o : Nat → CycleOutcome)
    (h3 : (o 3).gen = false) :
    countStored (run_gauntlet ls0 o 5).events ≤ 4
  ∧ (run_gauntlet ls0 o 5).program_count = 5
  ∧ (∀ v, Event.stored 3 v ∉ (run_gauntlet ls0 o 5).events)
  ∧ ∃ e ∈ (run_gauntlet ls0 o 5).events, eventIndex e = some 4 := by
  refine ⟨?_, run_gauntlet_pc ls0 o 5, ?_, ?_⟩
  · unfold run_gauntlet
    rw [finishRun_countStored]
    have h := runLoop_countStored_skip (clampLoopSize ls0) o 3 h3 5 initState
      (by simp [initState]) (by simp [initState])
    simpa [countStored, initState] using h
  · intro v hmem
    unfold run_gauntlet at hmem
    rcases finishRun_mem _ _ _ hmem with h1 | ⟨fl, h1⟩
    · rcases runLoop_mem_events (clampLoopSize ls0) o 5 initState _ h1 with h2 |
        ⟨i, fs, _, _, h2⟩
      · simp [initState] at h2
      · have hi := runCycle_stored_mem _ _ _ _ _ _ h2
        subst hi
        rw [runCycle_genfail _ _ _ _ h3] at h2
        simp at h2
    · exact absurd h1 (by simp)
  · obtain ⟨e, hmem, hidx⟩ := runLoop_index_covered (clampLoopSize ls0) o 5 initState 4
      (by simp [initState]) (by simp [initState])
    exact ⟨e, finishRun_events_mono _ _ _ hmem, hidx⟩

theorem genfail_skips_and_counts_witness :
    countStored (run_gauntlet 2
        (fun i => if i = 3 then ⟨false, .output []⟩
                  else ⟨true, .output "well-typed".toList⟩) 5).events ≤ 4
  ∧ (run_gauntlet 2
        (fun i => if i = 3 then ⟨false, .output []⟩
                  else ⟨true, .output "well-typed".toList⟩) 5).program_count = 5
  ∧ (∀ v, Event.stored 3 v ∉ (run_gauntlet 2
        (fun i => if i = 3 then ⟨false, .output []⟩
                  else ⟨true, .output "well-typed".toList⟩) 5).events)
  ∧ ∃ e ∈ (run_gauntlet 2
        (fun i => if i = 3 then ⟨false, .output []⟩
                  else ⟨true, .output "well-typed".toList⟩) 5).events,
      eventIndex e = some 4 :=
  genfail_skips_and_counts 2
    (fun i => if i = 3 then ⟨false, .output []⟩
              else ⟨true, .output "well-typed".toList⟩) (by decide)

set_option maxRecDepth 400000 in
/-- C9: with loop size 5 and a run of 13 indices all classified
well-typed, coverage is measured exactly twice at batch boundaries
(after index 4 for batch 0, after index 9 for batch 1) plus exactly once
in the finishing phase for the partial batch 2; the every-10 summary
fires once after index 9, and indices 10, 11, 12 land in batch 2's
welltyped bucket, 13 artifacts stored in all. -/
theorem finishing_measures_unclosed_batch :
    (run_gauntlet 5 (fun _ => ⟨true, .output "well-typed".toList⟩) 13).events
      = [.stored 0 "well-typed", .stored 1 "well-typed", .stored 2 "well-typed",
         .stored 3 "well-typed", .stored 4 "well-typed", .measured 0,
         .stored 5 "well-typed", .stored 6 "well-typed", .stored 7 "well-typed",
         .stored 8 "well-typed", .stored 9 "well-typed", .summary 9, .measured 1,
         .stored 10 "well-typed", .stored 11 "well-typed", .stored 12 "well-typed",
         .finalMeasured 2]
  ∧ (["gauntlet", "loop02", "welltyped", "gauntlet00010.p4"] : FilePath)
      ∈ (run_gauntlet 5 (fun _ => ⟨true, .output "well-typed".toList⟩) 13).fs
  ∧ (["gauntlet", "loop02", "welltyped", "gauntlet00011.p4"] : FilePath)
      ∈ (run_gauntlet 5 (fun _ => ⟨true, .output "well-typed".toList⟩) 13).fs
  ∧ (["gauntlet", "loop02", "welltyped", "gauntlet00012.p4"] : FilePath)
      ∈ (run_gauntlet 5 (fun _ => ⟨true, .output "well-typed".toList⟩) 13).fs
  ∧ (run_gauntlet 5 (fun _ => ⟨true, .output "well-typed".toList⟩) 13).fs.card
      = 13 := by
  refine ⟨by decide, by decide, by decide, by decide, by decide⟩

end Gauntlet
